import Mathlib

/-!
Verification of the traversal-and-transfer pipeline of `thudl.py`
(THU-Cloud-Downloader-CLI).  Python functions are shallowly embedded as
executable Lean definitions over `String` (modelled as its list of
characters), `List`, and `Except`.  Network and filesystem effects are
modelled by explicit data (directory trees, per-file outcome events,
HTTP responses) passed to the embedded functions.
-/

set_option maxRecDepth 4000

/-! ## Python string primitives -/

/-- Models Python `s[n:]`: drop the first `n` characters (total, empty-safe). -/
def pyDrop (s : String) (n : Nat) : String := String.mk (s.data.drop n)

/-- Character-list version of Python `str.startswith`: does the second list
start with the first? -/
def charsStartWith : List Char → List Char → Bool
  | [], _ => true
  | _ :: _, [] => false
  | p :: ps, c :: cs => (p == c) && charsStartWith ps cs

/-- Models Python `s.startswith(pre)`. -/
def pyStartsWith (s pre : String) : Bool := charsStartWith pre.data s.data

/-- Models Python `s.replace('/', '')`: remove every slash character. -/
def removeSlashes (s : String) : String :=
  String.mk (s.data.filter (fun c => c != '/'))

/-! ## fnmatch-style glob matching (models Python `fnmatch.fnmatch` on a
POSIX system: case-sensitive, `/` is an ordinary character, `*` and `?`
match any character including newline, `[...]` character classes with
`[!...]` negation, ranges, and a leading `]` taken literally; an
unterminated `[` is matched literally). -/

/-- Scan a bracket-class body up to the closing `]`.  Returns the body and
the remainder of the pattern, or `none` when the class is unterminated. -/
def parseClassBody : List Char → Option (List Char × List Char)
  | [] => none
  | ']' :: rest => some ([], rest)
  | c :: rest =>
    match parseClassBody rest with
    | none => none
    | some (b, r) => some (c :: b, r)

/-- Parse a bracket class after the opening `[`: optional `!` negation, a
`]` immediately after that is part of the body.  Returns (negated, body,
rest of the pattern). -/
def parseClass (ps : List Char) : Option (Bool × List Char × List Char) :=
  match ps with
  | '!' :: ']' :: rest =>
    match parseClassBody rest with
    | none => none
    | some (b, r) => some (true, ']' :: b, r)
  | '!' :: rest =>
    match parseClassBody rest with
    | none => none
    | some (b, r) => some (true, b, r)
  | ']' :: rest =>
    match parseClassBody rest with
    | none => none
    | some (b, r) => some (false, ']' :: b, r)
  | rest =>
    match parseClassBody rest with
    | none => none
    | some (b, r) => some (false, b, r)

/-- Interpret a class body as (lo, hi) ranges; a literal character `c`
becomes the range (c, c). -/
def classItems : List Char → List (Char × Char)
  | [] => []
  | a :: '-' :: b :: rest => (a, b) :: classItems rest
  | c :: rest => (c, c) :: classItems rest

/-- Does character `c` satisfy the (possibly negated) class body? -/
def classMatches (neg : Bool) (body : List Char) (c : Char) : Bool :=
  let hit := (classItems body).any fun lohi =>
    decide (lohi.1.toNat ≤ c.toNat) && decide (c.toNat ≤ lohi.2.toNat)
  if neg then !hit else hit

/-- Glob matching with an explicit fuel budget (first argument).  Every
recursive call shrinks pattern-length + string-length, so any fuel above
that sum computes the true fnmatch answer; `fnmatch` below supplies it. -/
def globFuel : Nat → List Char → List Char → Bool
  | 0, _, _ => false
  | fuel + 1, pat, s =>
    match pat, s with
    | [], [] => true
    | '*' :: ps, [] => globFuel fuel ps []
    | '*' :: ps, c :: cs =>
      globFuel fuel ps (c :: cs) || globFuel fuel ('*' :: ps) cs
    | _ :: _, [] => false
    | [], _ :: _ => false
    | '?' :: ps, _ :: cs => globFuel fuel ps cs
    | '[' :: ps, c :: cs =>
      match parseClass ps with
      | some (neg, body, rest) => classMatches neg body c && globFuel fuel rest cs
      | none => (c == '[') && globFuel fuel ps cs
    | pc :: ps, c :: cs => (pc == c) && globFuel fuel ps cs

/-- Models Python `fnmatch.fnmatch(name, pat)` (POSIX, case-sensitive).
The fuel `pat.length + name.length + 1` strictly dominates the recursion
depth of the matcher, so the budget is never exhausted. -/
def fnmatch (name pat : String) : Bool :=
  globFuel (pat.data.length + name.data.length + 1) pat.data name.data

/-! ## `is_match` (thudl.py lines 75-77) and the PatternMatcher spec -/

/-- Embedding of `is_match(file_path, pattern)`: Python does
`file_path = file_path[1:]` — it strips the first character
unconditionally — then `pattern is None or fnmatch.fnmatch(...)`. -/
def is_match (file_path : String) (pattern : Option String) : Bool :=
  match pattern with
  | none => true
  | some p => fnmatch (pyDrop file_path 1) p

/-- Strip a single leading path separator, and only a separator. -/
def stripLeadingSep (s : String) : String :=
  if pyStartsWith s "/" then pyDrop s 1 else s

/-- Modelled from the spec: `match(relative_path, pattern)` is standard
glob matching with any single leading path separator stripped before
comparison; `pattern = None` matches unconditionally. -/
def match_spec (s : String) (pattern : Option String) : Bool :=
  match pattern with
  | none => true
  | some p => fnmatch (stripLeadingSep s) p

/-- Default of the `--pattern` option of `main` (thudl.py line 143). -/
def default_pattern : String := "*.*"

/-- Does a character list contain a period? -/
def containsDot : List Char → Bool
  | [] => false
  | c :: cs => (('.' : Char) == c) || containsDot cs

/-! ## `get_share_key` (thudl.py lines 32-40) -/

/-- The service's fixed share-link head (thudl.py line 33). -/
def shareLinkBase : String := "https://cloud.tsinghua.edu.cn/d/"

/-- Message of the `ValueError` raised for a malformed link. -/
def invalidLinkMsg : String :=
  "Share link of Tsinghua Cloud should start with https://cloud.tsinghua.edu.cn/d/"

/-- Embedding of `get_share_key(url)`: raises `ValueError` unless the url
starts with the fixed head, else returns `url[len(head):].replace('/', '')`. -/
def get_share_key (url : String) : Except String String :=
  if pyStartsWith url shareLinkBase then
    Except.ok (removeSlashes (pyDrop url shareLinkBase.length))
  else
    Except.error invalidLinkMsg



/-! ## Remote directory tree and `dfs_search_files` (thudl.py lines 80-95) -/

/-- One object of a `dirent_list` JSON answer, with the keys the program
reads: `is_dir`, its path (`folder_path` for directories, `file_path`
for files), and `size`. -/
structure Dirent where
  is_dir : Bool
  path : String
  size : Nat
deriving DecidableEq

/-- A `dirent_list` answer of the listing API together with the answers
for every nested directory: each cell carries the fields of one JSON
object and, for a directory, the listing the service returns for its
`folder_path`.  This plays the role of the remote tree the walker reads
through `sess.get`. -/
inductive Listing where
  | nil
  | cons (is_dir : Bool) (path : String) (size : Nat) (children : Listing) (rest : Listing)
deriving DecidableEq

/-- Embedding of `dfs_search_files(share_key, path, pattern)` run against
a modelled remote tree: for each listed object, a directory is recursed
into (its matches extended into the result) and an object is otherwise
appended exactly when `is_match` accepts its path. -/
def dfs_search_files (pattern : Option String) : Listing → List Dirent
  | Listing.nil => []
  | Listing.cons d p sz ch rest =>
    if d then dfs_search_files pattern ch ++ dfs_search_files pattern rest
    else if is_match p pattern then
      { is_dir := d, path := p, size := sz } :: dfs_search_files pattern rest
    else dfs_search_files pattern rest

/-! ## URL construction (thudl.py lines 85-87 and 125) -/

/-- UTF-8 bytes of one character. -/
def utf8Bytes (c : Char) : List Nat :=
  let n := c.toNat
  if n < 128 then [n]
  else if n < 2048 then [192 + n / 64, 128 + n % 64]
  else if n < 65536 then [224 + n / 4096, 128 + n / 64 % 64, 128 + n % 64]
  else [240 + n / 262144, 128 + n / 4096 % 64, 128 + n / 64 % 64, 128 + n % 64]

/-- Bytes `urllib.parse.quote` keeps unescaped with the default
`safe='/'`: ASCII letters, digits, `_.-~` and the slash. -/
def isSafeByte (b : Nat) : Bool :=
  (65 ≤ b && b ≤ 90) || (97 ≤ b && b ≤ 122) || (48 ≤ b && b ≤ 57) ||
    b == 95 || b == 46 || b == 45 || b == 126 || b == 47

/-- Upper-case hexadecimal digit. -/
def hexDigit (n : Nat) : Char :=
  if n < 10 then Char.ofNat (48 + n) else Char.ofNat (55 + n)

/-- Percent-encode one byte unless it is safe. -/
def quoteByte (b : Nat) : List Char :=
  if isSafeByte b then [Char.ofNat b] else ['%', hexDigit (b / 16), hexDigit (b % 16)]

/-- Models `urllib.parse.quote(s)` with the default `safe='/'`. -/
def urlquote (s : String) : String :=
  String.mk (((s.data.map utf8Bytes).flatten.map quoteByte).flatten)

/-- Listing URL built by `dfs_search_files` (line 87): the path parameter
is URL-encoded with `urllib.parse.quote`. -/
def listing_url (key path : String) : String :=
  "https://cloud.tsinghua.edu.cn/api/v2.1/share-links/" ++ key ++
    "/dirents/?path=" ++ urlquote path

/-- Download URL built by `download` (line 125): `'...{}/files/?p={}&dl=1'
.format(share_key, file["file_path"])` — the raw path, no encoding. -/
def download_url (key path : String) : String :=
  "https://cloud.tsinghua.edu.cn/d/" ++ key ++ "/files/?p=" ++ path ++ "&dl=1"

/-- Modelled from the spec: `GET <prefix>/<key>/files/?p=<url-encoded file
path>&dl=1`, i.e. the download URL with the path URL-encoded the same way
the listing request encodes its path parameter. -/
def download_url_spec (key path : String) : String :=
  "https://cloud.tsinghua.edu.cn/d/" ++ key ++ "/files/?p=" ++ urlquote path ++ "&dl=1"

/-! ## Streaming transfer of one file (thudl.py lines 98-104) -/

inductive TransferError where
  | transferError
deriving DecidableEq

/-- What one file transfer leaves behind: the bytes written to the local
file and the amount added to the progress bar. -/
structure DownloadOutcome where
  written : List Nat
  progress : Nat
deriving DecidableEq

/-- Result of `sess.get(url, stream=True)`: either the request raises
(connection failure), or a response arrives with a success flag (2xx
status) and its body chunks as `iter_content` yields them. -/
inductive FetchResult where
  | connError
  | response (ok : Bool) (chunks : List (List Nat))
deriving DecidableEq

/-- Embedding of `download_single_file(url, fname, pbar)`: the body is
written chunk by chunk and the progress bar advanced by each written
size.  There is no status check — only a raised exception escapes. -/
def download_single_file (r : FetchResult) : Except TransferError DownloadOutcome :=
  match r with
  | FetchResult.connError => Except.error TransferError.transferError
  | FetchResult.response _ chunks =>
    Except.ok { written := chunks.flatten, progress := (chunks.map List.length).sum }

/-- Modelled from the spec: `open_download_stream(key, remote_path)` fails
with `TransferError` on non-success status, and otherwise streams the body. -/
def open_download_stream_spec (r : FetchResult) : Except TransferError DownloadOutcome :=
  match r with
  | FetchResult.connError => Except.error TransferError.transferError
  | FetchResult.response ok chunks =>
    if ok then Except.ok { written := chunks.flatten, progress := (chunks.map List.length).sum }
    else Except.error TransferError.transferError

/-! ## Download orchestrator loop (thudl.py lines 119-135) -/

/-- Per-file outcome of the two effectful steps of the loop body:
`os.makedirs` (line 127, outside the `try`) may raise, and the transfer
inside the `try` (line 130) may raise. -/
inductive FileEvent where
  | mkdirFail
  | transferFail
  | ok
deriving DecidableEq

/-- Observable outcome of the loop of `download`: which indices reached
`download_single_file`, which failures were logged by the `except` arm,
whether `"Download finished."` was logged, and whether an uncaught
exception aborted the loop at some index. -/
structure BatchResult where
  attempted : List Nat
  logged : List Nat
  finishedNotice : Bool
  abortedAt : Option Nat
deriving DecidableEq

/-- The loop of `download` from index `i` on: `os.makedirs` runs before
the `try`, so its failure aborts the whole loop; a transfer failure is
caught, logged, and the loop continues; after the last file the
completion notice is emitted. -/
def downloadFrom : Nat → List FileEvent → BatchResult
  | _, [] => { attempted := [], logged := [], finishedNotice := true, abortedAt := none }
  | i, FileEvent.mkdirFail :: _ =>
    { attempted := [], logged := [], finishedNotice := false, abortedAt := some i }
  | i, FileEvent.ok :: rest =>
    { attempted := i :: (downloadFrom (i + 1) rest).attempted,
      logged := (downloadFrom (i + 1) rest).logged,
      finishedNotice := (downloadFrom (i + 1) rest).finishedNotice,
      abortedAt := (downloadFrom (i + 1) rest).abortedAt }
  | i, FileEvent.transferFail :: rest =>
    { attempted := i :: (downloadFrom (i + 1) rest).attempted,
      logged := i :: (downloadFrom (i + 1) rest).logged,
      finishedNotice := (downloadFrom (i + 1) rest).finishedNotice,
      abortedAt := (downloadFrom (i + 1) rest).abortedAt }

/-- Embedding of `download(share_key, filelist, save_dir)` over the
per-file outcomes of its manifest. -/
def download (files : List FileEvent) : BatchResult :=
  downloadFrom 0 files

/-! ## Password check and pipeline order (thudl.py lines 55-72, 139-183) -/

/-- Requests the embedded pipeline can issue to the service. -/
inductive Event where
  | getSharePage
  | postPassword
  | listDir (path : String)
deriving DecidableEq

inductive RunError where
  | invalidLink
  | wrongPassword
deriving DecidableEq

/-- Environment of one run: whether the share page embeds a
`csrfmiddlewaretoken` (the share is password-protected), whether the
password the operator enters is accepted, and the root listing. -/
structure Env where
  hasToken : Bool
  passwordOk : Bool
  tree : Listing

/-- Embedding of `verify_password(share_key)`: GET the share page; if a
token is present, prompt once, POST the password, and raise
`ValueError("Wrong password.")` when the response rejects it.  Returns
the issued requests and the optional error. -/
def verify_password (env : Env) : List Event × Option RunError :=
  if env.hasToken then
    ([Event.getSharePage, Event.postPassword],
      if env.passwordOk then none else some RunError.wrongPassword)
  else
    ([Event.getSharePage], none)

/-- Listing requests issued while iterating one listing: entering a
directory issues a GET for its path, then recursively those of its own
listing, pre-order. -/
def dfsEventsAux : Listing → List Event
  | Listing.nil => []
  | Listing.cons true p _ ch rest =>
    (Event.listDir p :: dfsEventsAux ch) ++ dfsEventsAux rest
  | Listing.cons false _ _ _ rest => dfsEventsAux rest

/-- Listing requests issued by `dfs_search_files(key, path, pattern)`:
one GET for `path` on entry, then those of the recursive calls. -/
def dfsEvents (path : String) (l : Listing) : List Event :=
  Event.listDir path :: dfsEventsAux l

/-- Embedding of the front of `main`: extract the share key (invalid link
is fatal), run the password check, and only on success enumerate the
tree.  Returns the requests issued and the manifest or the error. -/
def main_run (env : Env) (link : String) (pattern : Option String) :
    List Event × Except RunError (List Dirent) :=

  match get_share_key link with
  | Except.error _ => ([], Except.error RunError.invalidLink)
  | Except.ok _ =>
    match verify_password env with
    | (ev, some e) => (ev, Except.error e)
    | (ev, none) =>
      (ev ++ dfsEvents "/" env.tree, Except.ok (dfs_search_files pattern env.tree))

/-! ## `get_root_dir` (thudl.py lines 43-52) -/

/-- Literal part of the title regex before the `(.*)` group. -/
def titleMarkerPre : List Char := "<meta property=\"og:title\" content=\"".data

/-- Literal part of the title regex after the `(.*)` group. -/
def titleMarkerPost : List Char := "\" />".data

/-- Greedy `(.*)` capture: the longest newline-free prefix of `rest`
followed by the closing literal, as the backtracking regex engine finds
it.  Returns the capture length. -/
def greedyK (rest : List Char) : Option Nat :=
  ((List.range (rest.length + 1)).reverse).findSome? fun k =>
    if (rest.take k).contains '\n' then none
    else if charsStartWith titleMarkerPost (rest.drop k) then some k
    else none

/-- Left-to-right non-overlapping scan of `re.findall` for the pattern
`<meta property="og:title" content="(.*)" />`, with a fuel budget (the
scan consumes at least one character per step, so `length + 1` fuel
computes the full scan). -/
def findallAux : Nat → List Char → List String
  | 0, _ => []
  | _ + 1, [] => []
  | fuel + 1, c :: rest =>
    if charsStartWith titleMarkerPre (c :: rest) then
      match greedyK ((c :: rest).drop titleMarkerPre.length) with
      | some k =>
        String.mk (((c :: rest).drop titleMarkerPre.length).take k) ::
          findallAux fuel (((c :: rest).drop titleMarkerPre.length).drop (k + titleMarkerPost.length))
      | none => findallAux fuel rest
    else findallAux fuel rest

/-- Models `re.findall(pattern, text)` for the title pattern: always a
list (never `None`), one entry per non-overlapping match. -/
def re_findall_title (text : String) : List String :=
  findallAux (text.data.length + 1) text.data

inductive PyError where
  | assertionError
  | indexError
deriving DecidableEq

/-- Models the Python expression `x is None` for `x` of list type: a list
is never `None`, so this is constantly false — which is why the `assert
root_dir is not None` in `get_root_dir` can never fire. -/
def pyIsNone (_ : List String) : Bool := false

/-- Embedding of `get_root_dir(share_key)` applied to the fetched page
text: `assert root_dir is not None` fires only if the findall result is
`None` (never), and `root_dir[0]` raises `IndexError` on an empty match
list. -/
def get_root_dir (text : String) : Except PyError String :=
  if pyIsNone (re_findall_title text) then Except.error PyError.assertionError
  else
    match re_findall_title text with
    | [] => Except.error PyError.indexError
    | t :: _ => Except.ok t


/-! ## Helper lemmas -/

theorem charsStartWith_append (p rest : List Char) :
    charsStartWith p (p ++ rest) = true := by
  induction p with
  | nil => rfl
  | cons c cs ih => simp [charsStartWith, ih]

theorem globFuel_star (s : List Char) :
    ∀ f : Nat, s.length + 2 ≤ f → globFuel f ['*'] s = true := by
  induction s with
  | nil =>
    intro f hf
    rcases f with _ | f
    · omega
    rcases f with _ | f
    · omega
    rfl
  | cons c cs ih =>
    intro f hf
    rcases f with _ | f
    · omega
    rcases f with _ | f
    · simp only [List.length_cons] at hf; omega
    have h2 : globFuel (f + 1) ['*'] cs = true := by
      apply ih
      simp only [List.length_cons] at hf
      omega
    show (globFuel (f + 1) [] (c :: cs) || globFuel (f + 1) ['*'] cs) = true
    rw [h2, Bool.or_true]

theorem globFuel_star_dot_star (s : List Char) :
    ∀ f : Nat, s.length + 4 ≤ f → globFuel f ['*', '.', '*'] s = containsDot s := by
  induction s with
  | nil =>
    intro f hf
    rcases f with _ | f
    · omega
    rcases f with _ | f
    · omega
    rfl
  | cons c cs ih =>
    intro f hf
    rcases f with _ | f
    · omega
    rcases f with _ | f
    · simp only [List.length_cons] at hf; omega
    show ((('.' : Char) == c) && globFuel f ['*'] cs || globFuel (f + 1) ['*', '.', '*'] cs)
        = (((('.' : Char) == c)) || containsDot cs)
    have hrec : globFuel (f + 1) ['*', '.', '*'] cs = containsDot cs := by
      apply ih
      simp only [List.length_cons] at hf
      omega
    rw [hrec]
    cases hdot : (('.' : Char) == c) with
    | false => rw [Bool.false_and, Bool.false_or]
    | true =>
      have hstar : globFuel f ['*'] cs = true := by
        apply globFuel_star
        simp only [List.length_cons] at hf
        omega
      rw [hstar, Bool.true_and]

theorem fnmatch_star_dot_star (name : String) :
    fnmatch name "*.*" = containsDot name.data := by
  apply globFuel_star_dot_star
  show name.data.length + 4 ≤ 3 + name.data.length + 1
  omega

theorem dfs_search_files_mem (pattern : Option String) :
    ∀ (l : Listing) (e : Dirent), e ∈ dfs_search_files pattern l →
      e.is_dir = false ∧ is_match e.path pattern = true := by
  intro l
  induction l with
  | nil =>
    intro e h
    simp [dfs_search_files] at h
  | cons d p sz ch rest ihch ihrest =>
    intro e h
    cases d with
    | true =>
      rw [dfs_search_files, if_pos rfl] at h
      rcases List.mem_append.mp h with h1 | h1
      · exact ihch e h1
      · exact ihrest e h1
    | false =>
      rw [dfs_search_files] at h
      simp only [Bool.false_eq_true, if_false] at h
      by_cases hm : is_match p pattern = true
      · rw [if_pos hm] at h
        rcases List.mem_cons.mp h with h1 | h1
        · subst h1
          exact ⟨rfl, hm⟩
        · exact ihrest e h1
      · rw [if_neg hm] at h
        exact ihrest e h

theorem downloadFrom_no_mkdirFail :
    ∀ (files : List FileEvent) (i : Nat),
      (∀ e ∈ files, e ≠ FileEvent.mkdirFail) →
      (downloadFrom i files).finishedNotice = true ∧
        ∀ j : Nat, i ≤ j → j < i + files.length →
          j ∈ (downloadFrom i files).attempted := by
  intro files
  induction files with
  | nil =>
    intro i _
    refine ⟨rfl, ?_⟩
    intro j h1 h2
    simp only [List.length_nil] at h2
    omega
  | cons e rest ih =>
    intro i hno
    have hrest := ih (i + 1) (fun x hx => hno x (List.mem_cons_of_mem e hx))
    have he : e ≠ FileEvent.mkdirFail := hno e (List.mem_cons_self e rest)
    cases e with
    | mkdirFail => exact absurd rfl he
    | ok =>
      refine ⟨hrest.1, ?_⟩
      intro j h1 h2
      show j ∈ i :: (downloadFrom (i + 1) rest).attempted
      rcases Nat.eq_or_lt_of_le h1 with h3 | h3
      · exact h3 ▸ List.mem_cons_self i _
      · refine List.mem_cons_of_mem i (hrest.2 j h3 ?_)
        simp only [List.length_cons] at h2
        omega
    | transferFail =>
      refine ⟨hrest.1, ?_⟩
      intro j h1 h2
      show j ∈ i :: (downloadFrom (i + 1) rest).attempted
      rcases Nat.eq_or_lt_of_le h1 with h3 | h3
      · exact h3 ▸ List.mem_cons_self i _
      · refine List.mem_cons_of_mem i (hrest.2 j h3 ?_)
        simp only [List.length_cons] at h2
        omega

theorem downloadFrom_mkdirFail :
    ∀ (pre post : List FileEvent) (i : Nat),
      (∀ e ∈ pre, e ≠ FileEvent.mkdirFail) →
      (downloadFrom i (pre ++ FileEvent.mkdirFail :: post)).finishedNotice = false ∧
        (downloadFrom i (pre ++ FileEvent.mkdirFail :: post)).abortedAt = some (i + pre.length) ∧
        ∀ j ∈ (downloadFrom i (pre ++ FileEvent.mkdirFail :: post)).attempted,
          j < i + pre.length := by
  intro pre
  induction pre with
  | nil =>
    intro post i _
    refine ⟨rfl, rfl, ?_⟩
    intro j hj
    simp only [List.nil_append, downloadFrom] at hj
    exact absurd hj (List.not_mem_nil j)
  | cons e pre ih =>
    intro post i hno
    have hrest := ih post (i + 1) (fun x hx => hno x (List.mem_cons_of_mem e hx))
    have he : e ≠ FileEvent.mkdirFail := hno e (List.mem_cons_self e pre)
    cases e with
    | mkdirFail => exact absurd rfl he
    | ok =>
      refine ⟨hrest.1, ?_, ?_⟩
      · show (downloadFrom (i + 1) (pre ++ FileEvent.mkdirFail :: post)).abortedAt
            = some (i + (pre.length + 1))
        rw [hrest.2.1]
        congr 1
        omega
      · intro j hj
        rcases List.mem_cons.mp hj with h1 | h1
        · simp only [List.length_cons]
          omega
        · have := hrest.2.2 j h1
          simp only [List.length_cons]
          omega
    | transferFail =>
      refine ⟨hrest.1, ?_, ?_⟩
      · show (downloadFrom (i + 1) (pre ++ FileEvent.mkdirFail :: post)).abortedAt
            = some (i + (pre.length + 1))
        rw [hrest.2.1]
        congr 1
        omega
      · intro j hj
        rcases List.mem_cons.mp hj with h1 | h1
        · simp only [List.length_cons]
          omega
        · have := hrest.2.2 j h1
          simp only [List.length_cons]
          omega

/-! ## Claim theorems -/

/-- Claim C1 (counterexample): with the default pattern `"*.*"`, the file
entry `/README` produced by the walker is NOT included in the manifest,
so the default pattern does not behave as if every file matches. -/
theorem default_pattern_excludes_readme :
    dfs_search_files (some default_pattern)
      (Listing.cons false "/README" 7 Listing.nil Listing.nil) = [] := rfl

/-- Claim C1 (amended): the default `--pattern` of `main` is `"*.*"`, not
a match-everything default: a file entry passes `is_match` under it
exactly when its path with the first character stripped contains a
period, and the walker includes a file entry exactly under that
condition. -/
theorem default_pattern_matches_iff_dot (s : String) (sz : Nat) :
    is_match s (some default_pattern) = containsDot (s.data.drop 1) ∧
      dfs_search_files (some default_pattern) (Listing.cons false s sz Listing.nil Listing.nil) =
        (if containsDot (s.data.drop 1) then [{ is_dir := false, path := s, size := sz }] else []) := by
  have h1 : is_match s (some default_pattern) = containsDot (s.data.drop 1) :=
    fnmatch_star_dot_star (pyDrop s 1)
  refine ⟨h1, ?_⟩
  show (if is_match s (some default_pattern) = true
      then [({ is_dir := false, path := s, size := sz } : Dirent)] else []) = _
  rw [h1]

/-- Claim C2 (counterexample): for the path `a.txt` (no leading
separator) and the pattern `a.txt`, the code's `is_match` answers false
(it strips the first character, leaving `.txt`), while glob matching
with only a leading separator stripped answers true. -/
theorem is_match_strips_any_first_char :
    is_match "a.txt" (some "a.txt") = false ∧
      match_spec "a.txt" (some "a.txt") = true := ⟨rfl, rfl⟩

/-- Claim C2 (amended): `is_match` strips the first character of the path
unconditionally, so it agrees with standard glob matching with a single
leading separator stripped exactly on paths that begin with the
separator; `match(s, None)` is true for every path. -/
theorem is_match_matches_spec_on_slash_paths :
    (∀ s p : String, pyStartsWith s "/" = true →
      is_match s (some p) = match_spec s (some p)) ∧
      ∀ s : String, is_match s none = true := by
  constructor
  · intro s p hs
    show fnmatch (pyDrop s 1) p = fnmatch (stripLeadingSep s) p
    have h1 : stripLeadingSep s = pyDrop s 1 := by
      show (if pyStartsWith s "/" = true then pyDrop s 1 else s) = pyDrop s 1
      rw [if_pos hs]
    rw [h1]
  · intro s
    rfl

theorem is_match_matches_spec_on_slash_paths_witness :
    is_match "/a.txt" (some "*.txt") = match_spec "/a.txt" (some "*.txt") ∧
      is_match "/x" none = true :=
  ⟨is_match_matches_spec_on_slash_paths.1 "/a.txt" "*.txt" (by decide),
   is_match_matches_spec_on_slash_paths.2 "/x"⟩

/-- Claim C3 (counterexample): when creating the parent directory of the
file at index 0 fails, the file at index 1 is never attempted and the
completion notice is not emitted — the batch does not continue. -/
theorem mkdir_failure_aborts_counterexample :
    (download [FileEvent.mkdirFail, FileEvent.ok]).finishedNotice = false ∧
      1 ∉ (download [FileEvent.mkdirFail, FileEvent.ok]).attempted := by decide

/-- Claim C3 (amended): `os.makedirs` runs outside the `try` block, so a
directory-creation failure for the i-th file is NOT isolated: the loop
aborts at index i, no file at an index ≥ i is attempted, and the
completion notice is never reached. -/
theorem mkdir_failure_aborts (pre post : List FileEvent)
    (hpre : ∀ e ∈ pre, e ≠ FileEvent.mkdirFail) :
    (download (pre ++ FileEvent.mkdirFail :: post)).finishedNotice = false ∧
      (download (pre ++ FileEvent.mkdirFail :: post)).abortedAt = some pre.length ∧
      ∀ j ∈ (download (pre ++ FileEvent.mkdirFail :: post)).attempted, j < pre.length := by
  have h := downloadFrom_mkdirFail pre post 0 hpre
  refine ⟨h.1, ?_, ?_⟩
  · simpa using h.2.1
  · intro j hj
    have h2 := h.2.2 j hj
    omega

theorem mkdir_failure_aborts_witness :
    (download [FileEvent.transferFail, FileEvent.mkdirFail, FileEvent.ok]).finishedNotice = false ∧
      (download [FileEvent.transferFail, FileEvent.mkdirFail, FileEvent.ok]).abortedAt = some 1 := by
  have h := mkdir_failure_aborts [FileEvent.transferFail] [FileEvent.ok] (by decide)
  exact ⟨h.1, h.2.1⟩

/-- Claim C4 (counterexample): a response with non-success status and
body chunk `[104, 105]` is written to the local file as content, with no
`TransferError`: `download_single_file` never checks the status. -/
theorem download_ignores_status_counterexample :
    download_single_file (FetchResult.response false [[104, 105]]) =
      Except.ok { written := [104, 105], progress := 2 } := rfl

/-- Claim C4 (amended): `download_single_file` performs no status check:
on any non-success response it still writes the body chunks as file
content (where the spec model fails with `TransferError`), and it agrees
with the spec model exactly on success responses and on raised
connection errors. -/
theorem download_single_file_ignores_status (chunks : List (List Nat)) :
    download_single_file (FetchResult.response false chunks) =
        Except.ok { written := chunks.flatten, progress := (chunks.map List.length).sum } ∧
      open_download_stream_spec (FetchResult.response false chunks) =
        Except.error TransferError.transferError ∧
      download_single_file (FetchResult.response true chunks) =
        open_download_stream_spec (FetchResult.response true chunks) ∧
      download_single_file FetchResult.connError =
        open_download_stream_spec FetchResult.connError :=
  ⟨rfl, rfl, rfl, rfl⟩

/-- Claim C5 (counterexample): for the remote path `/a b` the download
URL built by the orchestrator differs from the URL-encoded one the spec
prescribes (the space is not percent-encoded). -/
theorem download_url_unencoded_counterexample :
    download_url "k" "/a b" ≠ download_url_spec "k" "/a b" := by decide

/-- Claim C5 (amended): the download URL embeds the file's remote path
verbatim, with no URL-encoding — it coincides with the URL-encoded form
the spec prescribes exactly when quoting leaves the path unchanged —
while the listing request does URL-encode its path parameter. -/
theorem download_url_unencoded (key p : String) :
    (download_url key p = download_url_spec key p ↔ urlquote p = p) ∧
      listing_url key p =
        "https://cloud.tsinghua.edu.cn/api/v2.1/share-links/" ++ key ++
          "/dirents/?path=" ++ urlquote p := by
  refine ⟨⟨?_, ?_⟩, rfl⟩
  · intro h
    unfold download_url download_url_spec at h
    apply String.ext
    have hd := congrArg String.data h
    simp only [String.data_append] at hd
    have h2 := List.append_cancel_right hd
    have h3 := List.append_cancel_left h2
    exact h3.symm
  · intro h
    unfold download_url download_url_spec
    rw [h]

/-- Claim C6: for every string, `get_share_key` returns the suffix after
the fixed share-link head with all slashes removed when the head is
present, and fails with the invalid-link error otherwise. -/
theorem get_share_key_spec :
    (∀ s : String, get_share_key (shareLinkBase ++ s) = Except.ok (removeSlashes s)) ∧
      ∀ url : String, pyStartsWith url shareLinkBase = false →
        get_share_key url = Except.error invalidLinkMsg := by
  constructor
  · intro s
    have h1 : pyStartsWith (shareLinkBase ++ s) shareLinkBase = true := by
      show charsStartWith shareLinkBase.data (shareLinkBase ++ s).data = true
      rw [String.data_append]
      exact charsStartWith_append shareLinkBase.data s.data
    have h2 : pyDrop (shareLinkBase ++ s) shareLinkBase.length = s := by
      show String.mk ((shareLinkBase ++ s).data.drop shareLinkBase.length) = s
      rw [String.data_append,
        show shareLinkBase.length = shareLinkBase.data.length from rfl,
        List.drop_left]
    unfold get_share_key
    rw [if_pos h1, h2]
  · intro url h
    unfold get_share_key
    rw [if_neg]
    simp [h]

theorem get_share_key_spec_witness :
    get_share_key (shareLinkBase ++ "ab/cd") = Except.ok (removeSlashes "ab/cd") ∧
      get_share_key "https://example.com/d/x" = Except.error invalidLinkMsg :=
  ⟨get_share_key_spec.1 "ab/cd",
   get_share_key_spec.2 "https://example.com/d/x" (by decide)⟩

/-- Claim C7: every entry of the manifest returned by the walker is a
file entry (`is_dir = false`) whose path `is_match` accepts; for a path
beginning with the separator this is exactly glob matching of the path
with the leading separator stripped.  No directory entry ever appears. -/
theorem dfs_only_matching_files (pattern : Option String) (l : Listing) (e : Dirent)
    (h : e ∈ dfs_search_files pattern l) :
    e.is_dir = false ∧ is_match e.path pattern = true ∧
      ∀ p : String, pattern = some p → pyStartsWith e.path "/" = true →
        fnmatch (stripLeadingSep e.path) p = true := by
  obtain ⟨h1, h2⟩ := dfs_search_files_mem pattern l e h
  refine ⟨h1, h2, ?_⟩
  intro p hp hs
  subst hp
  have h3 : stripLeadingSep e.path = pyDrop e.path 1 := by
    show (if pyStartsWith e.path "/" = true then pyDrop e.path 1 else e.path) = pyDrop e.path 1
    rw [if_pos hs]
  rw [h3]
  exact h2

theorem dfs_only_matching_files_witness :
    ({ is_dir := false, path := "/a.txt", size := 10 } : Dirent).is_dir = false ∧
      is_match "/a.txt" (some "*.txt") = true ∧
      fnmatch (stripLeadingSep "/a.txt") "*.txt" = true := by
  have h := dfs_only_matching_files (some "*.txt")
      (Listing.cons false "/a.txt" 10 Listing.nil Listing.nil)
      { is_dir := false, path := "/a.txt", size := 10 }
      (List.mem_singleton.mpr rfl)
  exact ⟨h.1, h.2.1, h.2.2 "*.txt" rfl (by decide)⟩

/-- Claim C8: when no directory creation fails, a `TransferError` on the
i-th file still lets every other file be attempted, and the completion
notice is emitted after the last entry no matter how many transfers
failed. -/
theorem transfer_error_isolated (files : List FileEvent) (i : Nat)
    (hno : ∀ e ∈ files, e ≠ FileEvent.mkdirFail)
    (_hi : files.get? i = some FileEvent.transferFail) :
    (∀ j : Nat, j < files.length → j ∈ (download files).attempted) ∧
      (download files).finishedNotice = true := by
  have h := downloadFrom_no_mkdirFail files 0 hno
  exact ⟨fun j hj => h.2 j (Nat.zero_le j) (by omega), h.1⟩

theorem transfer_error_isolated_witness :
    1 ∈ (download [FileEvent.ok, FileEvent.transferFail]).attempted ∧
      (download [FileEvent.ok, FileEvent.transferFail]).finishedNotice = true := by
  have h := transfer_error_isolated [FileEvent.ok, FileEvent.transferFail] 1
      (by decide) (by decide)
  exact ⟨h.1 1 (by decide), h.2⟩

/-- Claim C9: on a password-protected share with a wrong password entered
once, the run fails with the wrong-password error and no directory
listing request is ever issued: authentication strictly precedes
enumeration. -/
theorem wrong_password_before_listing (env : Env) (link : String) (pattern : Option String)
    (hlink : pyStartsWith link shareLinkBase = true)
    (htok : env.hasToken = true) (hpwd : env.passwordOk = false) :
    (main_run env link pattern).2 = Except.error RunError.wrongPassword ∧
      ∀ p : String, Event.listDir p ∉ (main_run env link pattern).1 := by
  have hkey : get_share_key link = Except.ok (removeSlashes (pyDrop link shareLinkBase.length)) := by
    unfold get_share_key
    rw [if_pos hlink]
  have hvp : verify_password env =
      ([Event.getSharePage, Event.postPassword], some RunError.wrongPassword) := by
    unfold verify_password
    rw [if_pos htok, if_neg]
    simp [hpwd]
  have hmain : main_run env link pattern =
      ([Event.getSharePage, Event.postPassword], Except.error RunError.wrongPassword) := by
    simp only [main_run, hkey, hvp]
  rw [hmain]
  refine ⟨rfl, ?_⟩
  intro p
  simp

theorem wrong_password_before_listing_witness :
    (main_run { hasToken := true, passwordOk := false, tree := Listing.nil }
        (shareLinkBase ++ "k") none).2 = Except.error RunError.wrongPassword ∧
      Event.listDir "/" ∉ (main_run { hasToken := true, passwordOk := false, tree := Listing.nil }
        (shareLinkBase ++ "k") none).1 := by
  have h := wrong_password_before_listing
      { hasToken := true, passwordOk := false, tree := Listing.nil }
      (shareLinkBase ++ "k") none (by decide) rfl rfl
  exact ⟨h.1, h.2 "/"⟩

/-- Claim C10: the condition asserted in `get_root_dir` (findall result
not `None`) holds for every response text, so the assertion can never
fire; when the title marker is absent the function instead fails with an
out-of-range index at element 0 of the empty match list. -/
theorem get_root_dir_assert_unreachable :
    (∀ text : String, get_root_dir text ≠ Except.error PyError.assertionError) ∧
      ∀ text : String, re_findall_title text = [] →
        get_root_dir text = Except.error PyError.indexError := by
  constructor
  · intro text h
    simp only [get_root_dir, pyIsNone, Bool.false_eq_true, if_false] at h
    rcases hf : re_findall_title text with _ | ⟨t, ts⟩
    · rw [hf] at h
      exact PyError.noConfusion (Except.error.inj h)
    · rw [hf] at h
      exact Except.noConfusion h
  · intro text hf
    unfold get_root_dir
    rw [hf]
    rfl

theorem get_root_dir_assert_unreachable_witness :
    get_root_dir "no title here" = Except.error PyError.indexError :=
  get_root_dir_assert_unreachable.2 "no title here" (by decide)
